import Mathlib

/-! contactkey: command registry, fill pipeline and the NewRelic hook.

Shallow embedding of `commands/command_registry.go` and `hooks/newrelic.go`.

Conventions.
* A Go `error` is its message; `nil` is `none`.
* Calls that leave the process (file reads, hook calls, HTTP, logging) are
  recorded, in program order, in a trace returned next to the result.
* Library and sibling-package functions whose code is not part of the embedded
  files (`path.Join`, the `%q` verb, `utils.ReadFile`, `utils.LoadManifest`,
  `context.NewContext`, `html/template`, `encoding/json`, `net/http`) are
  fields of an environment record and stay arbitrary in every theorem.
-/

namespace Contactkey

namespace commands

/-- A value of the `hooks.Hook` interface as `fill` sees it: what `Init()` returns
(`none` is a nil error) and what `StopOnError()` returns. `name` only tells hooks apart. -/
structure Hook where
  name : String
  Init : Option String
  StopOnError : Bool
deriving DecidableEq, Repr

/-- The part of `utils.Config` read by `fill`. -/
structure Config where
  WorkPath : String
deriving DecidableEq, Repr

/-- A decoded manifest (`utils.Manifest`); `fill` only passes it on. -/
structure Manifest where
  document : String
deriving DecidableEq, Repr

/-- The part of `context.Context` read by `fill`: the ordered hook list. -/
structure Context where
  Hooks : List Hook
deriving DecidableEq, Repr

/-- Address of a command object; the registry stores `&Deploy{}`, `&Diff{}`, ... . -/
abbrev Ptr := Nat

/-- Modelled from the spec: the command types `Deploy`, `Diff`, `List`, `Rollback` and their
`fill` methods are missing from the sources. "`fill(context, service, env)` configures the
command from a built Context": a command object is represented by the configurations it has
received, most recent first (empty: constructed, never filled). -/
structure CmdObj where
  kind : String
  fills : List (Context × String × String)
deriving DecidableEq, Repr

/-- Modelled from the spec: the method `fill(context, service, env)` of a command type,
which configures the command with the given context, service and environment. -/
def CmdObj.fill (c : CmdObj) (context : Context) (service env : String) : CmdObj :=
  { c with fills := (context, service, env) :: c.fills }

/-- The configuration a command object currently holds. -/
def CmdObj.configuredWith (c : CmdObj) : Option (Context × String × String) :=
  c.fills.head?

/-- Calls leaving `commands`, in program order. -/
inductive Event where
  | readFile (filePath : String)
  | loadManifest (manifestFile : String)
  | newContext (config : Config) (manifest : Manifest)
  | hookInit (hook : Hook)
  | logDebug (msg : String)
  | cmdFill (cck : Ptr) (context : Context) (service env : String)
deriving DecidableEq, Repr

/-- Functions used by `fill` whose code lies outside the embedded file. -/
structure Externals where
  /-- Go `path.Join` on two elements. -/
  pathJoin : String → String → String
  /-- Go `%q` verb of `fmt`. -/
  quote : String → String
  /-- Go `utils.ReadFile`. -/
  ReadFile : String → Except String String
  /-- Go `utils.LoadManifest`. -/
  LoadManifest : String → Except String Manifest
  /-- Go `context.NewContext`. -/
  NewContext : Config → Manifest → Except String Context

/-- Go `map[string]CckCommand`; the interface values stored are pointers. -/
abbrev GoMap := List (String × Ptr)

/-- Map read `m[k]` with the comma-ok form. -/
def GoMap.get (m : GoMap) (k : String) : Option Ptr :=
  m.lookup k

/-- Map write `m[k] = v`. -/
def GoMap.set (m : GoMap) (k : String) (v : Ptr) : GoMap :=
  (k, v) :: m.filter (fun e => e.1 != k)

/-- Package state: the global `typeRegistry` and the objects it points to. -/
structure State where
  typeRegistry : GoMap
  heap : List CmdObj
deriving DecidableEq, Repr

/-- The statement `typeRegistry[name] = &T{}`: allocate a fresh object, store its address. -/
def State.register (st : State) (name kind : String) : State :=
  { typeRegistry := st.typeRegistry.set name st.heap.length,
    heap := st.heap ++ [{ kind := kind, fills := [] }] }

/-- Package initialisation: `var typeRegistry = make(map[string]CckCommand)` followed by
`func init()`. -/
def init : State :=
  let st : State := { typeRegistry := [], heap := [] }
  let st := st.register "deploy" "Deploy"
  let st := st.register "diff" "Diff"
  let st := st.register "list" "List"
  let st := st.register "rollback" "Rollback"
  st

/-- The loop `for _, hook := range ctxt.Hooks` of `fill`: returns the error of the early
return (if any) and the calls made. `StopOnError()` only reads a flag and is not recorded. -/
def initHooks (X : Externals) : List Hook → Option String × List Event
  | [] => (none, [])
  | hook :: rest =>
    match hook.Init with
    | some err =>
      if hook.StopOnError = true then
        (some ("Init hook failed: " ++ X.quote err), [Event.hookInit hook])
      else
        let r := initHooks X rest
        (r.1, Event.hookInit hook :: Event.logDebug ("Init hook failed: " ++ X.quote err) :: r.2)
    | none =>
      let r := initHooks X rest
      (r.1, Event.hookInit hook :: r.2)

/-- Result of `fill`: returned error, calls made, heap afterwards. -/
structure FillResult where
  err : Option String
  trace : List Event
  heap : List CmdObj

/-- The interface call `cck.fill(ctxt, service, env)` on the object `cck` points to. -/
def callFill (heap : List CmdObj) (cck : Ptr) (ctxt : Context) (service env : String) :
    List CmdObj :=
  match heap[cck]? with
  | some obj => heap.set cck (obj.fill ctxt service env)
  | none => heap

/-- Go `fill(cck, config, service, env)`. -/
def fill (X : Externals) (heap : List CmdObj) (cck : Ptr) (config : Config)
    (service env : String) : FillResult :=
  let filePath := X.pathJoin config.WorkPath (service ++ ".yml")
  match X.ReadFile filePath with
  | .error err =>
    { err := some ("Unable to read file: " ++ X.quote filePath ++ " with err: " ++ X.quote err),
      trace := [Event.readFile filePath], heap := heap }
  | .ok manifestFile =>
    match X.LoadManifest manifestFile with
    | .error err =>
      { err := some ("LoadConfig failed with err " ++ X.quote err),
        trace := [Event.readFile filePath, Event.loadManifest manifestFile], heap := heap }
    | .ok manifest =>
      match X.NewContext config manifest with
      | .error err =>
        { err := some ("NewContext failed with err " ++ X.quote err),
          trace := [Event.readFile filePath, Event.loadManifest manifestFile,
                    Event.newContext config manifest],
          heap := heap }
      | .ok ctxt =>
        let built := [Event.readFile filePath, Event.loadManifest manifestFile,
                      Event.newContext config manifest]
        match initHooks X ctxt.Hooks with
        | (some err, calls) => { err := some err, trace := built ++ calls, heap := heap }
        | (none, calls) =>
          { err := none,
            trace := built ++ calls ++ [Event.cmdFill cck ctxt service env],
            heap := callFill heap cck ctxt service env }

/-- Result of `makeInstance`: returned command (`none` is nil), returned error, calls made,
package state afterwards. -/
structure MakeResult where
  cmd : Option Ptr
  err : Option String
  trace : List Event
  state : State

/-- Go `makeInstance(cfg, name, service, env)`. -/
def makeInstance (X : Externals) (st : State) (cfg : Config) (name service env : String) :
    MakeResult :=
  match st.typeRegistry.get name with
  | none => { cmd := none, err := some ("Struct not found " ++ name), trace := [], state := st }
  | some cckCommand =>
    let r := fill X st.heap cckCommand cfg service env
    match r.err with
    | some err => { cmd := none, err := some err, trace := r.trace,
                    state := { st with heap := r.heap } }
    | none => { cmd := some cckCommand, err := none, trace := r.trace,
                state := { st with heap := r.heap } }

/-- The hooks on which `Init` was called, in call order. -/
def initCalls : List Event → List Hook
  | [] => []
  | Event.hookInit h :: rest => h :: initCalls rest
  | _ :: rest => initCalls rest

/-- The arguments of the calls to the `fill` method of a command, in call order. -/
def fillCalls : List Event → List (Ptr × Context × String × String)
  | [] => []
  | Event.cmdFill p c s e :: rest => (p, c, s, e) :: fillCalls rest
  | _ :: rest => fillCalls rest

end commands

namespace hooks

/-- The part of `utils.NewRelicConfig` read by the constructor. -/
structure NewRelicConfig where
  Url : String
  ApiKey : String
deriving DecidableEq, Repr

/-- The part of `utils.NewRelicManifest` read by the constructor. -/
structure NewRelicManifest where
  ApplicationFilter : String
  StopOnError : Bool
deriving DecidableEq, Repr

/-- Go `NewRelicClient`. The field `HttpClient` (always `&http.Client{}`) is the network;
its `Do` is the field `httpDo` of the environment. -/
structure NewRelicClient where
  Url : String
  ApiKey : String
  ApplicationFilter : String
  ApplicationId : Int
  Stop : Bool
deriving DecidableEq, Repr

/-- Go `NewRelicDeployment`. -/
structure NewRelicDeployment where
  Revision : String
  Changelog : String
  Description : String
  User : String
deriving DecidableEq, Repr

/-- Element of `NewRelicApplicationList.Applications`. -/
structure NewRelicApplication where
  Id : Int
  Name : String
deriving DecidableEq, Repr

/-- Go `NewRelicApplicationList`. -/
structure NewRelicApplicationList where
  Applications : List NewRelicApplication
deriving DecidableEq, Repr

/-- Go `NewRelicDeploymentBody`. -/
structure NewRelicDeploymentBody where
  Deployment : NewRelicDeployment
deriving DecidableEq, Repr

/-- An `*http.Request` as built by `http.NewRequest` and the header calls. -/
structure Request where
  Method : String
  Url : String
  Body : String
  Header : List (String × String)
deriving DecidableEq, Repr

/-- Go `Header.Add`. -/
def Request.headerAdd (r : Request) (key value : String) : Request :=
  { r with Header := r.Header ++ [(key, value)] }

/-- Go `Header.Set`. -/
def Request.headerSet (r : Request) (key value : String) : Request :=
  { r with Header := r.Header.filter (fun e => e.1 != key) ++ [(key, value)] }

/-- An `*http.Response`: its status code and what `ioutil.ReadAll` gives on its body. -/
structure Response where
  StatusCode : Int
  Body : Except String String

/-- The two values returned by `HttpClient.Do`; each may be nil. -/
structure HttpResult where
  response : Option Response
  err : Option String

/-- Go `http.StatusOK`. -/
def StatusOK : Int := 200

/-- Go `http.StatusCreated`. -/
def StatusCreated : Int := 201

/-- Calls leaving `hooks`, in program order. -/
inductive HEvent where
  | httpDo (request : Request)
  | logDebug (msg : String) (fields : List (String × String))
deriving DecidableEq, Repr

/-- Library functions used by the NewRelic hook. -/
structure Lib where
  /-- Error of `template.New("filter").Parse(text)`. -/
  templateParse : String → Option String
  /-- What `Execute` wrote to the buffer for the given template text and env, and its error. -/
  templateExecute : String → String → String × Option String
  /-- Error of `http.NewRequest(method, url, body)`. -/
  requestError : String → String → Option String
  /-- Go `HttpClient.Do`. -/
  httpDo : Request → HttpResult
  /-- Go `json.Unmarshal` into a `NewRelicApplicationList`. -/
  jsonUnmarshal : String → Except String NewRelicApplicationList
  /-- Go `json.NewEncoder(body).Encode` of a `NewRelicDeploymentBody`. -/
  jsonEncode : NewRelicDeploymentBody → Except String String

/-- How a Go call ends: a value with a nil error, a non-nil error, or a run-time panic. -/
inductive Ret (α : Type) where
  | value (a : α)
  | error (msg : String)
  | panic (msg : String)
deriving DecidableEq, Repr

/-- Whether the call returned a non-nil error. -/
def Ret.isError {α : Type} : Ret α → Bool
  | Ret.error _ => true
  | _ => false

/-- Outcome of a call and the calls it made. -/
structure Run (α : Type) where
  ret : Ret α
  trace : List HEvent

/-- Outcome of a method call, with the receiver variable `c` as it is on return. -/
structure MethodRun where
  self : NewRelicClient
  ret : Ret Unit
  trace : List HEvent

/-- Message of the run-time error raised on a field access through a nil pointer. -/
def nilDereference : String := "invalid memory address or nil pointer dereference"

/-- Go `NewRelicClient.Init`. -/
def NewRelicClient.Init (c : NewRelicClient) : MethodRun :=
  { self := c, ret := Ret.value (), trace := [] }

/-- Go `NewRelicClient.PostDeployment`. -/
def NewRelicClient.PostDeployment (c : NewRelicClient)
    (_userName _env _service _podVersion : String) : MethodRun :=
  { self := c, ret := Ret.value (), trace := [] }

/-- Go `NewRelicClient.StopOnError`. -/
def NewRelicClient.StopOnError (c : NewRelicClient) : Bool :=
  c.Stop

/-- Go `NewNewRelicClient`. -/
def NewNewRelicClient (cfg : NewRelicConfig) (manifest : NewRelicManifest) :
    Except String NewRelicClient :=
  if cfg.Url = "" then
    .error "You need to define an url for newrelic in the config."
  else if cfg.ApiKey = "" then
    .error "You need to define an apiKey for newrelic in the config."
  else if manifest.ApplicationFilter = "" then
    .error "You need to define an applicationId for newrelic in the manifest."
  else
    .ok { Url := cfg.Url, ApiKey := cfg.ApiKey, Stop := manifest.StopOnError,
          ApplicationFilter := manifest.ApplicationFilter, ApplicationId := 0 }

/-- Go `NewRelicClient.NewRequest`. -/
def NewRelicClient.NewRequest (L : Lib) (c : NewRelicClient) (method route body : String) :
    Except String Request × List HEvent :=
  let url := c.Url ++ "/" ++ route
  match L.requestError method url with
  | some err => (.error err, [])
  | none =>
    let request : Request := { Method := method, Url := url, Body := body, Header := [] }
    let request := request.headerAdd "X-Api-Key" c.ApiKey
    (.ok request,
      [HEvent.logDebug "NewRelic request" [("url", request.Url), ("method", request.Method)]])

/-- Go `NewRelicClient.findApplicationId`. -/
def NewRelicClient.findApplicationId (L : Lib) (c : NewRelicClient) (nameFilter : String) :
    Run Int :=
  let filter := "filter[name]=" ++ nameFilter
  match c.NewRequest L "GET" "v2/applications.json" filter with
  | (.error err, t) => { ret := Ret.error err, trace := t }
  | (.ok request, t) =>
    let request := request.headerSet "Content-Type" "application/x-www-form-urlencoded"
    let t := t ++ [HEvent.httpDo request]
    match L.httpDo request with
    | { response := _, err := some err } => { ret := Ret.error err, trace := t }
    | { response := none, err := none } => { ret := Ret.panic nilDereference, trace := t }
    | { response := some response, err := none } =>
      match response.Body with
      | .error err => { ret := Ret.error err, trace := t }
      | .ok bodyJson =>
        let t := t ++ [HEvent.logDebug "NewRelic response"
          [("statusCode", toString response.StatusCode), ("body", bodyJson)]]
        if response.StatusCode ≠ StatusOK then
          { ret := Ret.error "HTTP error from NewRelic", trace := t }
        else
          match L.jsonUnmarshal bodyJson with
          | .error err => { ret := Ret.error err, trace := t }
          | .ok applications =>
            match applications.Applications with
            | [] => { ret := Ret.error ("application " ++ nameFilter ++ " not found"), trace := t }
            | app :: _ => { ret := Ret.value app.Id, trace := t }

/-- Go `NewRelicClient.CreateDeployment`. -/
def NewRelicClient.CreateDeployment (L : Lib) (c : NewRelicClient) (d : NewRelicDeployment) :
    Run Unit :=
  match L.jsonEncode { Deployment := d } with
  | .error err => { ret := Ret.error err, trace := [] }
  | .ok body =>
    match c.NewRequest L "POST"
        ("v2/applications/" ++ toString c.ApplicationId ++ "/deployments.json") body with
    | (.error err, t) => { ret := Ret.error err, trace := t }
    | (.ok request, t) =>
      let request := request.headerSet "Content-Type" "application/json"
      let t := t ++ [HEvent.httpDo request]
      match L.httpDo request with
      | { response := none, err := _ } => { ret := Ret.panic nilDereference, trace := t }
      | { response := some response, err := err } =>
        let t := t ++ [HEvent.logDebug "NewRelic response"
          [("statusCode", toString response.StatusCode)]]
        match err with
        | some err => { ret := Ret.error err, trace := t }
        | none =>
          if response.StatusCode ≠ StatusCreated then
            { ret := Ret.error ("NewRelic status code: " ++ toString response.StatusCode),
              trace := t }
          else
            { ret := Ret.value (), trace := t }

/-- Go `NewRelicClient.PreDeployment`. -/
def NewRelicClient.PreDeployment (L : Lib) (c : NewRelicClient)
    (userName env service podVersion : String) : MethodRun :=
  match L.templateParse c.ApplicationFilter with
  | some err => { self := c, ret := Ret.error err, trace := [] }
  | none =>
    let filter := (L.templateExecute c.ApplicationFilter env).1
    let found := c.findApplicationId L filter
    match found.ret with
    | Ret.error err => { self := c, ret := Ret.error err, trace := found.trace }
    | Ret.panic msg => { self := c, ret := Ret.panic msg, trace := found.trace }
    | Ret.value appId =>
      let c := { c with ApplicationId := appId }
      let description := "Deploying " ++ service ++ " " ++ podVersion ++ " on " ++ env
      let d : NewRelicDeployment :=
        { Description := description, Revision := podVersion, User := userName, Changelog := "" }
      let created := c.CreateDeployment L d
      { self := c, ret := created.ret, trace := found.trace ++ created.trace }

/-- Receiver kinds of Go methods. -/
inductive Receiver where
  | value
  | pointer
deriving DecidableEq, Repr

/-- A lifecycle call on a hook, with its arguments. -/
inductive Call where
  | Init
  | PreDeployment (userName env service podVersion : String)
  | PostDeployment (userName env service podVersion : String)
deriving DecidableEq, Repr

/-- Receiver kind each method is declared with: all are `func (c NewRelicClient) ...`. -/
def Call.receiver : Call → Receiver
  | Call.Init => Receiver.value
  | Call.PreDeployment _ _ _ _ => Receiver.value
  | Call.PostDeployment _ _ _ _ => Receiver.value

/-- A lifecycle call on the hook object `hook`: a method with a value receiver runs on a copy,
so the object keeps its fields; with a pointer receiver it would take the fields of `c`. -/
def invoke (L : Lib) (hook : NewRelicClient) (call : Call) : MethodRun :=
  let r :=
    match call with
    | Call.Init => hook.Init
    | Call.PreDeployment u e s v => hook.PreDeployment L u e s v
    | Call.PostDeployment u e s v => hook.PostDeployment u e s v
  match call.receiver with
  | Receiver.value => { r with self := hook }
  | Receiver.pointer => r

/-- The hook object after a sequence of lifecycle calls, each in its own environment;
a panic ends the process. -/
def lifecycle (hook : NewRelicClient) : List (Lib × Call) → NewRelicClient
  | [] => hook
  | (L, call) :: rest =>
    let r := invoke L hook call
    match r.ret with
    | Ret.panic _ => r.self
    | _ => lifecycle r.self rest

/-- The requests passed to `HttpClient.Do`, in call order. -/
def httpCalls : List HEvent → List Request
  | [] => []
  | HEvent.httpDo r :: rest => r :: httpCalls rest
  | _ :: rest => httpCalls rest

/-- The request `findApplicationId` passes to `Do` for `nameFilter`. -/
def lookupRequest (c : NewRelicClient) (nameFilter : String) : Request :=
  { Method := "GET", Url := c.Url ++ "/" ++ "v2/applications.json",
    Body := "filter[name]=" ++ nameFilter,
    Header := [("X-Api-Key", c.ApiKey), ("Content-Type", "application/x-www-form-urlencoded")] }

/-- The request `CreateDeployment` passes to `Do` for the application `appId` and the encoded
body `body`. -/
def createRequest (c : NewRelicClient) (appId : Int) (body : String) : Request :=
  { Method := "POST",
    Url := c.Url ++ "/" ++ ("v2/applications/" ++ toString appId ++ "/deployments.json"),
    Body := body,
    Header := [("X-Api-Key", c.ApiKey), ("Content-Type", "application/json")] }

/-! ## Concrete environments used to instantiate the theorems -/

/-- The text `json.Encoder.Encode` writes for a deployment body whose strings need no
escaping. -/
def sampleEncode (body : NewRelicDeploymentBody) : String :=
  "\x7b\"deployment\":\x7b\"revision\":\"" ++ body.Deployment.Revision ++
    "\",\"changelog\":\"" ++ body.Deployment.Changelog ++
    "\",\"description\":\"" ++ body.Deployment.Description ++
    "\",\"user\":\"" ++ body.Deployment.User ++ "\"\x7d\x7d\n"

/-- An environment in which templates parse and render to their own text (no actions),
requests can be built, the lookup call (GET) is answered by `lookup`, the create call (POST)
by `create`, and every body decodes to `apps`. -/
def sampleLib (lookup create : HttpResult) (apps : List NewRelicApplication) : Lib :=
  { templateParse := fun _ => none,
    templateExecute := fun text _ => (text, none),
    requestError := fun _ _ => none,
    httpDo := fun request => if request.Method = "GET" then lookup else create,
    jsonUnmarshal := fun _ => .ok { Applications := apps },
    jsonEncode := fun body => .ok (sampleEncode body) }

/-- A response with the given status and a readable body. -/
def answered (status : Int) : HttpResult :=
  { response := some { StatusCode := status, Body := .ok "payload" }, err := none }

/-- A transport failure: no response, an error. -/
def transportFailure : HttpResult :=
  { response := none, err := some "connection refused" }

/-- A client as the constructor builds it. -/
def sampleClient : NewRelicClient :=
  { Url := "https://api.newrelic.test", ApiKey := "key", ApplicationFilter := "shop-prod",
    ApplicationId := 0, Stop := true }

/-- A deployment marker. -/
def sampleDeployment : NewRelicDeployment :=
  { Revision := "1.2.3", Changelog := "", Description := "Deploying shop 1.2.3 on prod",
    User := "alice" }

end hooks

namespace commands

/-! ## Concrete environments used to instantiate the theorems -/

/-- Hook whose `Init` fails and which does not stop the run. -/
def hookSoft : Hook := { name := "H1", Init := some "unreachable", StopOnError := false }

/-- Hook whose `Init` fails and which stops the run. -/
def hookFatal : Hook := { name := "H2", Init := some "boom", StopOnError := true }

/-- Hook whose `Init` succeeds and which would stop the run on failure. -/
def hookGood : Hook := { name := "H3", Init := none, StopOnError := true }

/-- An environment in which the first three stages succeed or fail as asked and the built
context holds `hooks`. -/
def sampleExternals (readOk parseOk buildOk : Bool) (hooks : List Hook) : Externals :=
  { pathJoin := fun dir file => dir ++ "/" ++ file,
    quote := fun s => "\"" ++ s ++ "\"",
    ReadFile := fun filePath =>
      if readOk then .ok ("manifest at " ++ filePath) else .error "no such file",
    LoadManifest := fun file => if parseOk then .ok { document := file } else .error "bad yaml",
    NewContext := fun _ _ =>
      if buildOk then .ok { Hooks := hooks } else .error "bad hook section" }

/-- An environment in which every stage succeeds and the built context holds one hook named
after the manifest it was built from. -/
def perServiceExternals : Externals :=
  { pathJoin := fun dir file => dir ++ "/" ++ file,
    quote := fun s => "\"" ++ s ++ "\"",
    ReadFile := fun filePath => .ok filePath,
    LoadManifest := fun file => .ok { document := file },
    NewContext := fun _ manifest =>
      .ok { Hooks := [{ name := manifest.document, Init := none, StopOnError := true }] } }

/-- A configuration with work path `/etc/cck`. -/
def sampleConfig : Config := { WorkPath := "/etc/cck" }

/-! ## Lemmas on the hook loop and the traces -/

theorem initCalls_append (a b : List Event) : initCalls (a ++ b) = initCalls a ++ initCalls b := by
  induction a with
  | nil => rfl
  | cons ev rest ih => cases ev <;> simp [initCalls, ih]

theorem fillCalls_append (a b : List Event) : fillCalls (a ++ b) = fillCalls a ++ fillCalls b := by
  induction a with
  | nil => rfl
  | cons ev rest ih => cases ev <;> simp [fillCalls, ih]

theorem fillCalls_initHooks (X : Externals) (hooks : List Hook) :
    fillCalls (initHooks X hooks).2 = [] := by
  induction hooks with
  | nil => rfl
  | cons h rest ih =>
    unfold initHooks
    cases hI : h.Init with
    | none => simpa [fillCalls] using ih
    | some e =>
      by_cases hs : h.StopOnError = true
      · simp [hs, fillCalls]
      · simpa [hs, fillCalls] using ih

theorem initHooks_fatal (X : Externals) (hooks : List Hook) (i : Nat) (hook : Hook) (e : String)
    (hi : hooks[i]? = some hook) (hInit : hook.Init = some e) (hStop : hook.StopOnError = true)
    (hEarlier : ∀ j h, j < i → hooks[j]? = some h → h.Init = none ∨ h.StopOnError = false) :
    (initHooks X hooks).1 = some ("Init hook failed: " ++ X.quote e) ∧
      initCalls (initHooks X hooks).2 = hooks.take (i + 1) := by
  induction hooks generalizing i with
  | nil => simp at hi
  | cons h rest ih =>
    cases i with
    | zero =>
      simp at hi
      subst hi
      unfold initHooks
      simp [hInit, hStop, initCalls]
    | succ k =>
      simp at hi
      have hrest := ih k hi (fun j h' hj hh => hEarlier (j + 1) h' (by omega) (by simpa using hh))
      have hhead := hEarlier 0 h (by omega) (by simp)
      unfold initHooks
      cases hI : h.Init with
      | none => simpa [initCalls] using hrest
      | some e' =>
        rcases hhead with hnone | hfalse
        · rw [hI] at hnone
          cases hnone
        · simpa [hfalse, initCalls] using hrest

theorem initHooks_pass (X : Externals) (hooks : List Hook)
    (hSoft : ∀ h ∈ hooks, h.Init ≠ none → h.StopOnError = false) :
    (initHooks X hooks).1 = none ∧ initCalls (initHooks X hooks).2 = hooks := by
  induction hooks with
  | nil => exact ⟨rfl, rfl⟩
  | cons h rest ih =>
    have hrest := ih (fun h' hm => hSoft h' (List.mem_cons_of_mem _ hm))
    unfold initHooks
    cases hI : h.Init with
    | none => simpa [initCalls] using hrest
    | some e =>
      have hf : h.StopOnError = false := hSoft h (List.mem_cons_self _ _) (by simp [hI])
      simpa [hf, initCalls] using hrest

theorem fill_built (X : Externals) (heap : List CmdObj) (cck : Ptr) (config : Config)
    (service env manifestFile : String) (manifest : Manifest) (ctxt : Context)
    (hRead : X.ReadFile (X.pathJoin config.WorkPath (service ++ ".yml")) = .ok manifestFile)
    (hParse : X.LoadManifest manifestFile = .ok manifest)
    (hBuild : X.NewContext config manifest = .ok ctxt) :
    fill X heap cck config service env =
      match initHooks X ctxt.Hooks with
      | (some err, calls) =>
        { err := some err,
          trace := [Event.readFile (X.pathJoin config.WorkPath (service ++ ".yml")),
            Event.loadManifest manifestFile, Event.newContext config manifest] ++ calls,
          heap := heap }
      | (none, calls) =>
        { err := none,
          trace := [Event.readFile (X.pathJoin config.WorkPath (service ++ ".yml")),
            Event.loadManifest manifestFile, Event.newContext config manifest] ++ calls ++
            [Event.cmdFill cck ctxt service env],
          heap := callFill heap cck ctxt service env } := by
  simp only [fill, hRead, hParse, hBuild]


theorem init_typeRegistry :
    init.typeRegistry = [("rollback", 3), ("list", 2), ("diff", 1), ("deploy", 0)] := by
  decide

theorem init_get_none_iff (name : String) :
    init.typeRegistry.get name = none ↔ name ∉ ["deploy", "diff", "list", "rollback"] := by
  rw [init_typeRegistry]
  by_cases h1 : name = "rollback"
  · subst h1; decide
  by_cases h2 : name = "list"
  · subst h2; decide
  by_cases h3 : name = "diff"
  · subst h3; decide
  by_cases h4 : name = "deploy"
  · subst h4; decide
  have b1 : (name == "rollback") = false := by simpa using h1
  have b2 : (name == "list") = false := by simpa using h2
  have b3 : (name == "diff") = false := by simpa using h3
  have b4 : (name == "deploy") = false := by simpa using h4
  simp [GoMap.get, List.lookup, b1, b2, b3, b4, h1, h2, h3, h4]

theorem fill_trace_head (X : Externals) (heap : List CmdObj) (cck : Ptr) (config : Config)
    (service env : String) :
    (fill X heap cck config service env).trace.head? =
      some (Event.readFile (X.pathJoin config.WorkPath (service ++ ".yml"))) := by
  cases hRead : X.ReadFile (X.pathJoin config.WorkPath (service ++ ".yml")) with
  | error e => simp [fill, hRead]
  | ok file =>
    cases hParse : X.LoadManifest file with
    | error e => simp [fill, hRead, hParse]
    | ok manifest =>
      cases hBuild : X.NewContext config manifest with
      | error e => simp [fill, hRead, hParse, hBuild]
      | ok ctxt =>
        rw [fill_built X heap cck config service env file manifest ctxt hRead hParse hBuild]
        rcases initHooks X ctxt.Hooks with ⟨err, calls⟩
        cases err <;> rfl

theorem makeInstance_err_trace (X : Externals) (st : State) (cfg : Config)
    (name service env : String) (cck : Ptr) (hreg : st.typeRegistry.get name = some cck) :
    (makeInstance X st cfg name service env).err = (fill X st.heap cck cfg service env).err ∧
      (makeInstance X st cfg name service env).trace =
        (fill X st.heap cck cfg service env).trace ∧
      (makeInstance X st cfg name service env).state =
        { st with heap := (fill X st.heap cck cfg service env).heap } ∧
      (makeInstance X st cfg name service env).cmd =
        if (fill X st.heap cck cfg service env).err = none then some cck else none := by
  unfold makeInstance
  rw [hreg]
  cases h : (fill X st.heap cck cfg service env).err <;> simp [h]

theorem fill_ok (X : Externals) (heap : List CmdObj) (cck : Ptr) (config : Config)
    (service env : String) (hok : (fill X heap cck config service env).err = none) :
    ∃ ctxt, fillCalls (fill X heap cck config service env).trace = [(cck, ctxt, service, env)] ∧
      (fill X heap cck config service env).heap = callFill heap cck ctxt service env := by
  cases hRead : X.ReadFile (X.pathJoin config.WorkPath (service ++ ".yml")) with
  | error e => simp [fill, hRead] at hok
  | ok file =>
    cases hParse : X.LoadManifest file with
    | error e => simp [fill, hRead, hParse] at hok
    | ok manifest =>
      cases hBuild : X.NewContext config manifest with
      | error e => simp [fill, hRead, hParse, hBuild] at hok
      | ok ctxt =>
        have hnofill := fillCalls_initHooks X ctxt.Hooks
        rw [fill_built X heap cck config service env file manifest ctxt hRead hParse hBuild]
          at hok ⊢
        rcases hpair : initHooks X ctxt.Hooks with ⟨err, calls⟩
        rw [hpair] at hok hnofill
        cases err with
        | some e => simp at hok
        | none =>
          refine ⟨ctxt, ?_, rfl⟩
          simp only at hnofill
          simp [fillCalls_append, fillCalls, hnofill]

theorem callFill_get (heap : List CmdObj) (p : Ptr) (obj : CmdObj) (ctxt : Context)
    (service env : String) (hobj : heap[p]? = some obj) :
    (callFill heap p ctxt service env)[p]? = some (obj.fill ctxt service env) := by
  have hlt : p < heap.length := by
    rcases Nat.lt_or_ge p heap.length with h | h
    · exact h
    · rw [List.getElem?_eq_none h] at hobj
      cases hobj
  unfold callFill
  rw [hobj]
  simp [List.getElem?_set, hlt]

theorem makeInstance_ok (X : Externals) (st : State) (cfg : Config)
    (name service env : String) (p : Ptr)
    (hcmd : (makeInstance X st cfg name service env).cmd = some p) :
    st.typeRegistry.get name = some p ∧
      (makeInstance X st cfg name service env).state.typeRegistry = st.typeRegistry ∧
      ∃ ctxt, fillCalls (makeInstance X st cfg name service env).trace =
          [(p, ctxt, service, env)] ∧
        (makeInstance X st cfg name service env).state.heap =
          callFill st.heap p ctxt service env := by
  cases hget : st.typeRegistry.get name with
  | none => simp [makeInstance, hget] at hcmd
  | some q =>
    have hm := makeInstance_err_trace X st cfg name service env q hget
    rw [hm.2.2.2] at hcmd
    by_cases hok : (fill X st.heap q cfg service env).err = none
    · rw [if_pos hok] at hcmd
      have hq : q = p := by simpa using hcmd
      subst hq
      obtain ⟨ctxt, hcalls, hheap⟩ := fill_ok X st.heap q cfg service env hok
      refine ⟨rfl, ?_, ctxt, ?_, ?_⟩
      · rw [hm.2.2.1]
      · rw [hm.2.1]
        exact hcalls
      · rw [hm.2.2.1]
        exact hheap
    · rw [if_neg hok] at hcmd
      cases hcmd

/-- C1: when the context is built and hook `i` of its list fails at `Init` with
`StopOnError()` true, every earlier hook having succeeded or having `StopOnError()` false,
`fill` returns the error "Init hook failed: " followed by the quoted error of hook `i`, `Init`
has been called once on each of the hooks `0..i` in list order and on no later hook, the `fill`
method of the command is not called and no command object changes. -/
theorem fill_stops_at_fatal_init (X : Externals) (heap : List CmdObj) (cck : Ptr)
    (config : Config) (service env manifestFile : String) (manifest : Manifest)
    (ctxt : Context) (i : Nat) (hook : Hook) (e : String)
    (hRead : X.ReadFile (X.pathJoin config.WorkPath (service ++ ".yml")) = .ok manifestFile)
    (hParse : X.LoadManifest manifestFile = .ok manifest)
    (hBuild : X.NewContext config manifest = .ok ctxt)
    (hi : ctxt.Hooks[i]? = some hook) (hInit : hook.Init = some e)
    (hStop : hook.StopOnError = true)
    (hEarlier : ∀ j h, j < i → ctxt.Hooks[j]? = some h →
      h.Init = none ∨ h.StopOnError = false) :
    (fill X heap cck config service env).err = some ("Init hook failed: " ++ X.quote e) ∧
      initCalls (fill X heap cck config service env).trace = ctxt.Hooks.take (i + 1) ∧
      fillCalls (fill X heap cck config service env).trace = [] ∧
      (fill X heap cck config service env).heap = heap := by
  have hloop := initHooks_fatal X ctxt.Hooks i hook e hi hInit hStop hEarlier
  have hnofill := fillCalls_initHooks X ctxt.Hooks
  rw [fill_built X heap cck config service env manifestFile manifest ctxt hRead hParse hBuild]
  rcases hpair : initHooks X ctxt.Hooks with ⟨err, calls⟩
  rw [hpair] at hloop hnofill
  simp only at hloop hnofill
  obtain ⟨herr, hcalls⟩ := hloop
  subst herr
  refine ⟨rfl, ?_, ?_, rfl⟩
  · simpa [initCalls] using hcalls
  · simpa [fillCalls] using hnofill

/-- C1 at `[H1 (soft, fails), H2 (fatal, fails), H3]` with `i = 1`: the error carries the one of H2,
error, `Init` ran on H1 and H2 only, the command was not filled. -/
theorem fill_stops_at_fatal_init_witness :
    (fill (sampleExternals true true true [hookSoft, hookFatal, hookGood])
        init.heap 0 sampleConfig "svc" "prod").err = some "Init hook failed: \"boom\"" ∧
      initCalls (fill (sampleExternals true true true [hookSoft, hookFatal, hookGood])
        init.heap 0 sampleConfig "svc" "prod").trace = [hookSoft, hookFatal] ∧
      fillCalls (fill (sampleExternals true true true [hookSoft, hookFatal, hookGood])
        init.heap 0 sampleConfig "svc" "prod").trace = [] ∧
      (fill (sampleExternals true true true [hookSoft, hookFatal, hookGood])
        init.heap 0 sampleConfig "svc" "prod").heap = init.heap :=
  fill_stops_at_fatal_init (sampleExternals true true true [hookSoft, hookFatal, hookGood])
    init.heap 0 sampleConfig "svc" "prod" "manifest at /etc/cck/svc.yml"
    { document := "manifest at /etc/cck/svc.yml" } { Hooks := [hookSoft, hookFatal, hookGood] }
    1 hookFatal "boom" rfl rfl rfl rfl rfl rfl
    (by
      intro j h hj hh
      have hj0 : j = 0 := by omega
      subst hj0
      simp at hh
      subst hh
      exact Or.inr rfl)

/-- C2: when the manifest is read and parsed, the context is built, and every hook of its list
whose `Init` fails has `StopOnError()` false, `fill` returns no error, `Init` has been called
once on every hook in list order, and the one call of the `fill` method of the command, made last,
receives the context returned by `NewContext` (the same hooks in the same order, failed ones
included) with the given service and environment. -/
theorem fill_succeeds_with_soft_failures (X : Externals) (heap : List CmdObj) (cck : Ptr)
    (config : Config) (service env manifestFile : String) (manifest : Manifest)
    (ctxt : Context)
    (hRead : X.ReadFile (X.pathJoin config.WorkPath (service ++ ".yml")) = .ok manifestFile)
    (hParse : X.LoadManifest manifestFile = .ok manifest)
    (hBuild : X.NewContext config manifest = .ok ctxt)
    (hSoft : ∀ h ∈ ctxt.Hooks, h.Init ≠ none → h.StopOnError = false) :
    (fill X heap cck config service env).err = none ∧
      initCalls (fill X heap cck config service env).trace = ctxt.Hooks ∧
      fillCalls (fill X heap cck config service env).trace = [(cck, ctxt, service, env)] ∧
      (fill X heap cck config service env).trace.getLast? =
        some (Event.cmdFill cck ctxt service env) ∧
      (fill X heap cck config service env).heap = callFill heap cck ctxt service env := by
  have hloop := initHooks_pass X ctxt.Hooks hSoft
  have hnofill := fillCalls_initHooks X ctxt.Hooks
  rw [fill_built X heap cck config service env manifestFile manifest ctxt hRead hParse hBuild]
  rcases hpair : initHooks X ctxt.Hooks with ⟨err, calls⟩
  rw [hpair] at hloop hnofill
  simp only at hloop hnofill
  obtain ⟨herr, hcalls⟩ := hloop
  subst herr
  refine ⟨rfl, ?_, ?_, ?_, rfl⟩
  · simpa [initCalls_append, initCalls] using hcalls
  · simp [fillCalls_append, fillCalls, hnofill]
  · exact List.getLast?_concat _

/-- C2 at `[H1 (soft, fails), H3 (fatal, succeeds)]`: success, `Init` ran on both, and the
deploy command is configured with a context holding both. -/
theorem fill_succeeds_with_soft_failures_witness :
    (fill (sampleExternals true true true [hookSoft, hookGood])
        init.heap 0 sampleConfig "svc" "prod").err = none ∧
      initCalls (fill (sampleExternals true true true [hookSoft, hookGood])
        init.heap 0 sampleConfig "svc" "prod").trace = [hookSoft, hookGood] ∧
      fillCalls (fill (sampleExternals true true true [hookSoft, hookGood])
        init.heap 0 sampleConfig "svc" "prod").trace =
          [(0, { Hooks := [hookSoft, hookGood] }, "svc", "prod")] ∧
      (fill (sampleExternals true true true [hookSoft, hookGood])
        init.heap 0 sampleConfig "svc" "prod").trace.getLast? =
          some (Event.cmdFill 0 { Hooks := [hookSoft, hookGood] } "svc" "prod") ∧
      (fill (sampleExternals true true true [hookSoft, hookGood])
        init.heap 0 sampleConfig "svc" "prod").heap =
          callFill init.heap 0 { Hooks := [hookSoft, hookGood] } "svc" "prod" :=
  fill_succeeds_with_soft_failures (sampleExternals true true true [hookSoft, hookGood])
    init.heap 0 sampleConfig "svc" "prod" "manifest at /etc/cck/svc.yml"
    { document := "manifest at /etc/cck/svc.yml" } { Hooks := [hookSoft, hookGood] }
    rfl rfl rfl
    (by
      intro h hm hne
      simp at hm
      rcases hm with rfl | rfl
      · rfl
      · exact absurd rfl hne)


/-- C3: with the registry as `init` leaves it, the lookup of `makeInstance` fails exactly for
the names other than "deploy", "diff", "list", "rollback"; for such a name `makeInstance`
returns a nil command and the error "Struct not found " followed by the name, makes no call
at all (no manifest read, parse, context construction, hook `Init` or command `fill`) and
leaves the package state as it was; for a registered name the pipeline starts (the manifest
read is the first call). -/
theorem makeInstance_unregistered (X : Externals) (st : State) (cfg : Config)
    (name service env : String) (hreg : st.typeRegistry = init.typeRegistry) :
    (st.typeRegistry.get name = none ↔ name ∉ ["deploy", "diff", "list", "rollback"]) ∧
      (name ∉ ["deploy", "diff", "list", "rollback"] →
        (makeInstance X st cfg name service env).cmd = none ∧
        (makeInstance X st cfg name service env).err = some ("Struct not found " ++ name) ∧
        (makeInstance X st cfg name service env).trace = [] ∧
        (makeInstance X st cfg name service env).state = st) ∧
      (name ∈ ["deploy", "diff", "list", "rollback"] →
        (makeInstance X st cfg name service env).trace.head? =
          some (Event.readFile (X.pathJoin cfg.WorkPath (service ++ ".yml")))) := by
  have hiff := init_get_none_iff name
  rw [← hreg] at hiff
  refine ⟨hiff, ?_, ?_⟩
  · intro hn
    have hnone := hiff.mpr hn
    simp [makeInstance, hnone]
  · intro hmem
    cases hget : st.typeRegistry.get name with
    | none => exact absurd hmem (hiff.mp hget)
    | some cck =>
      rw [(makeInstance_err_trace X st cfg name service env cck hget).2.1]
      exact fill_trace_head X st.heap cck cfg service env

/-- C3 at the name "bogus": nil command, error "Struct not found bogus", no call made. -/
theorem makeInstance_unregistered_witness :
    (makeInstance (sampleExternals true true true []) init sampleConfig
        "bogus" "svc" "prod").cmd = none ∧
      (makeInstance (sampleExternals true true true []) init sampleConfig
        "bogus" "svc" "prod").err = some "Struct not found bogus" ∧
      (makeInstance (sampleExternals true true true []) init sampleConfig
        "bogus" "svc" "prod").trace = [] ∧
      (makeInstance (sampleExternals true true true []) init sampleConfig
        "bogus" "svc" "prod").state = init :=
  (makeInstance_unregistered (sampleExternals true true true []) init sampleConfig
    "bogus" "svc" "prod" rfl).2.1 (by decide)

/-- C4: for a registered command, `makeInstance` returns the error of `fill` with the calls
`fill` made, and a nil command whenever that error is not nil. `fill` stops at the first
failing stage: if the manifest read fails, the read is the only call; if the parse fails, the
calls are the read and the parse; if the context construction fails, the calls are the read,
the parse and the construction; in these three cases no hook `Init` and no command `fill` is
called and no command object changes. If the three stages succeed and hook `i` is the first
hook that fails at `Init` with `StopOnError()` true, the error is "Init hook failed: " followed by
the quoted error of hook `i`, the command is nil, the calls start with the read, the parse and
the construction, `Init` ran on the hooks `0..i` only and the command `fill` is not called. If
the three stages succeed and no hook fails fatally, the error is nil and the registered command
is returned. -/
theorem fill_first_error (X : Externals) (st : State) (cfg : Config)
    (name service env : String) (cck : Ptr) (hreg : st.typeRegistry.get name = some cck) :
    (makeInstance X st cfg name service env).err = (fill X st.heap cck cfg service env).err ∧
      (makeInstance X st cfg name service env).trace =
        (fill X st.heap cck cfg service env).trace ∧
      ((fill X st.heap cck cfg service env).err ≠ none →
        (makeInstance X st cfg name service env).cmd = none) ∧
      (∀ e, X.ReadFile (X.pathJoin cfg.WorkPath (service ++ ".yml")) = .error e →
        (fill X st.heap cck cfg service env).err =
          some ("Unable to read file: " ++
            X.quote (X.pathJoin cfg.WorkPath (service ++ ".yml")) ++
            " with err: " ++ X.quote e) ∧
        (fill X st.heap cck cfg service env).trace =
          [Event.readFile (X.pathJoin cfg.WorkPath (service ++ ".yml"))] ∧
        (fill X st.heap cck cfg service env).heap = st.heap) ∧
      (∀ file e, X.ReadFile (X.pathJoin cfg.WorkPath (service ++ ".yml")) = .ok file →
        X.LoadManifest file = .error e →
        (fill X st.heap cck cfg service env).err =
          some ("LoadConfig failed with err " ++ X.quote e) ∧
        (fill X st.heap cck cfg service env).trace =
          [Event.readFile (X.pathJoin cfg.WorkPath (service ++ ".yml")),
            Event.loadManifest file] ∧
        (fill X st.heap cck cfg service env).heap = st.heap) ∧
      (∀ file manifest e,
        X.ReadFile (X.pathJoin cfg.WorkPath (service ++ ".yml")) = .ok file →
        X.LoadManifest file = .ok manifest → X.NewContext cfg manifest = .error e →
        (fill X st.heap cck cfg service env).err =
          some ("NewContext failed with err " ++ X.quote e) ∧
        (fill X st.heap cck cfg service env).trace =
          [Event.readFile (X.pathJoin cfg.WorkPath (service ++ ".yml")),
            Event.loadManifest file, Event.newContext cfg manifest] ∧
        (fill X st.heap cck cfg service env).heap = st.heap) ∧
      (∀ file manifest ctxt i hook e,
        X.ReadFile (X.pathJoin cfg.WorkPath (service ++ ".yml")) = .ok file →
        X.LoadManifest file = .ok manifest → X.NewContext cfg manifest = .ok ctxt →
        ctxt.Hooks[i]? = some hook → hook.Init = some e → hook.StopOnError = true →
        (∀ j h, j < i → ctxt.Hooks[j]? = some h → h.Init = none ∨ h.StopOnError = false) →
        (fill X st.heap cck cfg service env).err =
          some ("Init hook failed: " ++ X.quote e) ∧
        (makeInstance X st cfg name service env).err =
          some ("Init hook failed: " ++ X.quote e) ∧
        (makeInstance X st cfg name service env).cmd = none ∧
        (fill X st.heap cck cfg service env).trace.take 3 =
          [Event.readFile (X.pathJoin cfg.WorkPath (service ++ ".yml")),
            Event.loadManifest file, Event.newContext cfg manifest] ∧
        initCalls (fill X st.heap cck cfg service env).trace = ctxt.Hooks.take (i + 1) ∧
        fillCalls (fill X st.heap cck cfg service env).trace = [] ∧
        (fill X st.heap cck cfg service env).heap = st.heap) ∧
      (∀ file manifest ctxt,
        X.ReadFile (X.pathJoin cfg.WorkPath (service ++ ".yml")) = .ok file →
        X.LoadManifest file = .ok manifest → X.NewContext cfg manifest = .ok ctxt →
        (∀ h ∈ ctxt.Hooks, h.Init ≠ none → h.StopOnError = false) →
        (fill X st.heap cck cfg service env).err = none ∧
        (makeInstance X st cfg name service env).err = none ∧
        (makeInstance X st cfg name service env).cmd = some cck) := by
  have hm := makeInstance_err_trace X st cfg name service env cck hreg
  refine ⟨hm.1, hm.2.1, ?_, ?_, ?_, ?_, ?_, ?_⟩
  · intro hne
    rw [hm.2.2.2, if_neg hne]
  · intro e hRead
    simp [fill, hRead]
  · intro file e hRead hParse
    simp [fill, hRead, hParse]
  · intro file manifest e hRead hParse hBuild
    simp [fill, hRead, hParse, hBuild]
  · intro file manifest ctxt i hook e hRead hParse hBuild hi hInit hStop hEarlier
    have hloop := initHooks_fatal X ctxt.Hooks i hook e hi hInit hStop hEarlier
    have hnofill := fillCalls_initHooks X ctxt.Hooks
    have hfill := fill_built X st.heap cck cfg service env file manifest ctxt hRead hParse hBuild
    rcases hpair : initHooks X ctxt.Hooks with ⟨err, calls⟩
    rw [hpair] at hloop hnofill hfill
    simp only at hloop hnofill hfill
    obtain ⟨herr, hcalls⟩ := hloop
    subst herr
    simp only at hfill
    have herrf : (fill X st.heap cck cfg service env).err =
        some ("Init hook failed: " ++ X.quote e) := by
      rw [hfill]
    refine ⟨herrf, ?_, ?_, ?_, ?_, ?_, ?_⟩
    · rw [hm.1, herrf]
    · rw [hm.2.2.2, herrf]
      simp
    · rw [hfill]
      simp
    · rw [hfill]
      simpa [initCalls] using hcalls
    · rw [hfill]
      simpa [fillCalls] using hnofill
    · rw [hfill]
  · intro file manifest ctxt hRead hParse hBuild hSoft
    have hloop := initHooks_pass X ctxt.Hooks hSoft
    have hfill := fill_built X st.heap cck cfg service env file manifest ctxt hRead hParse hBuild
    rcases hpair : initHooks X ctxt.Hooks with ⟨err, calls⟩
    rw [hpair] at hloop hfill
    simp only at hloop hfill
    obtain ⟨herr, _⟩ := hloop
    subst herr
    simp only at hfill
    have herrf : (fill X st.heap cck cfg service env).err = none := by
      rw [hfill]
    refine ⟨herrf, ?_, ?_⟩
    · rw [hm.1, herrf]
    · rw [hm.2.2.2, herrf]
      simp

/-- C4 at "deploy": with an unparsable manifest, nil command, the parse error, and the read
and the parse as the only calls; with a readable manifest and hooks
`[H1 (soft, fails), H2 (fatal, fails), H3]`, nil command and the error of H2. -/
theorem fill_first_error_witness :
    (makeInstance (sampleExternals true false true [hookGood]) init sampleConfig
        "deploy" "svc" "prod").cmd = none ∧
      (makeInstance (sampleExternals true false true [hookGood]) init sampleConfig
        "deploy" "svc" "prod").err = some "LoadConfig failed with err \"bad yaml\"" ∧
      (makeInstance (sampleExternals true false true [hookGood]) init sampleConfig
        "deploy" "svc" "prod").trace =
          [Event.readFile "/etc/cck/svc.yml",
            Event.loadManifest "manifest at /etc/cck/svc.yml"] ∧
      (makeInstance (sampleExternals true true true [hookSoft, hookFatal, hookGood]) init
        sampleConfig "deploy" "svc" "prod").err = some "Init hook failed: \"boom\"" ∧
      (makeInstance (sampleExternals true true true [hookSoft, hookFatal, hookGood]) init
        sampleConfig "deploy" "svc" "prod").cmd = none := by
  have h := fill_first_error (sampleExternals true false true [hookGood]) init sampleConfig
    "deploy" "svc" "prod" 0 (by decide)
  have hparse := h.2.2.2.2.1 "manifest at /etc/cck/svc.yml" "bad yaml" rfl rfl
  have g := fill_first_error (sampleExternals true true true [hookSoft, hookFatal, hookGood])
    init sampleConfig "deploy" "svc" "prod" 0 (by decide)
  have hfatal := g.2.2.2.2.2.2.1 "manifest at /etc/cck/svc.yml"
    { document := "manifest at /etc/cck/svc.yml" } { Hooks := [hookSoft, hookFatal, hookGood] }
    1 hookFatal "boom" rfl rfl rfl rfl rfl rfl
    (by
      intro j hk hj hh
      have hj0 : j = 0 := by omega
      subst hj0
      simp at hh
      subst hh
      exact Or.inr rfl)
  refine ⟨h.2.2.1 ?_, ?_, ?_, hfatal.2.1, hfatal.2.2.1⟩
  · rw [hparse.1]
    simp
  · rw [h.1]
    exact hparse.1
  · rw [h.2.1]
    exact hparse.2.1

/-- C5, the claim as stated fails: two successful `makeInstance` calls for "deploy", the first
for ("svcA", "prod"), the second for ("svcB", "staging"), return the same object (address 0 of
the registry); after the first call it is configured with the context, service and
environment of svcA, after the second call with those of svcB, and it has then been configured
twice. -/
theorem makeInstance_second_call_reconfigures_first_command :
    (makeInstance perServiceExternals init sampleConfig "deploy" "svcA" "prod").cmd = some 0 ∧
      (makeInstance perServiceExternals
        (makeInstance perServiceExternals init sampleConfig "deploy" "svcA" "prod").state
        sampleConfig "deploy" "svcB" "staging").cmd = some 0 ∧
      (makeInstance perServiceExternals init sampleConfig
        "deploy" "svcA" "prod").state.heap[0]?.bind CmdObj.configuredWith =
        some ({ Hooks := [{ name := "/etc/cck/svcA.yml", Init := none, StopOnError := true }] },
          "svcA", "prod") ∧
      (makeInstance perServiceExternals
        (makeInstance perServiceExternals init sampleConfig "deploy" "svcA" "prod").state
        sampleConfig "deploy" "svcB" "staging").state.heap[0]?.bind CmdObj.configuredWith =
        some ({ Hooks := [{ name := "/etc/cck/svcB.yml", Init := none, StopOnError := true }] },
          "svcB", "staging") ∧
      ((makeInstance perServiceExternals
        (makeInstance perServiceExternals init sampleConfig "deploy" "svcA" "prod").state
        sampleConfig "deploy" "svcB" "staging").state.heap[0]?.map
          (fun obj => obj.fills.length)) = some 2 := by
  decide

/-- C5, amended: `makeInstance` constructs no object. A successful call returns the object the
registry stores under the name, after one call of the `fill` method of that object; so two
successful calls with the same name return the same object, which after the second call holds the
context, service and environment of the second call on top of those of the first, and the
table of the registry is the same after either call. -/
theorem makeInstance_shares_registry_instance (X : Externals) (st : State) (cfg : Config)
    (name service1 env1 service2 env2 : String) (p1 p2 : Ptr) (obj : CmdObj)
    (hfirst : (makeInstance X st cfg name service1 env1).cmd = some p1)
    (hsecond : (makeInstance X (makeInstance X st cfg name service1 env1).state cfg name
      service2 env2).cmd = some p2)
    (hobj : st.heap[p1]? = some obj) :
    st.typeRegistry.get name = some p1 ∧ p2 = p1 ∧
      (makeInstance X st cfg name service1 env1).state.typeRegistry = st.typeRegistry ∧
      (makeInstance X (makeInstance X st cfg name service1 env1).state cfg name
        service2 env2).state.typeRegistry = st.typeRegistry ∧
      ∃ ctxt1 ctxt2,
        fillCalls (makeInstance X st cfg name service1 env1).trace =
          [(p1, ctxt1, service1, env1)] ∧
        fillCalls (makeInstance X (makeInstance X st cfg name service1 env1).state cfg name
          service2 env2).trace = [(p1, ctxt2, service2, env2)] ∧
        (makeInstance X st cfg name service1 env1).state.heap[p1]? =
          some { obj with fills := (ctxt1, service1, env1) :: obj.fills } ∧
        (makeInstance X (makeInstance X st cfg name service1 env1).state cfg name
          service2 env2).state.heap[p1]? =
          some { obj with
            fills := (ctxt2, service2, env2) :: (ctxt1, service1, env1) :: obj.fills } ∧
        (makeInstance X (makeInstance X st cfg name service1 env1).state cfg name
          service2 env2).state.heap[p1]?.bind CmdObj.configuredWith =
          some (ctxt2, service2, env2) := by
  obtain ⟨hget1, hreg1, ctxt1, hcalls1, hheap1⟩ :=
    makeInstance_ok X st cfg name service1 env1 p1 hfirst
  obtain ⟨hget2, hreg2, ctxt2, hcalls2, hheap2⟩ :=
    makeInstance_ok X (makeInstance X st cfg name service1 env1).state cfg name
      service2 env2 p2 hsecond
  rw [hreg1, hget1] at hget2
  have hp : p2 = p1 := by
    have := Option.some.inj hget2
    exact this.symm
  subst hp
  have hafter1 : (makeInstance X st cfg name service1 env1).state.heap[p2]? =
      some (obj.fill ctxt1 service1 env1) := by
    rw [hheap1]
    exact callFill_get st.heap p2 obj ctxt1 service1 env1 hobj
  have hafter2 : (makeInstance X (makeInstance X st cfg name service1 env1).state cfg name
      service2 env2).state.heap[p2]? =
      some ((obj.fill ctxt1 service1 env1).fill ctxt2 service2 env2) := by
    rw [hheap2]
    exact callFill_get _ p2 _ ctxt2 service2 env2 hafter1
  refine ⟨hget1, rfl, hreg1, ?_, ctxt1, ctxt2, hcalls1, hcalls2, hafter1, hafter2, ?_⟩
  · rw [hreg2, hreg1]
  · rw [hafter2]
    rfl

/-- C5 amended, at two "deploy" calls for ("svcA", "prod") and ("svcB", "staging"). -/
theorem makeInstance_shares_registry_instance_witness :
    init.typeRegistry.get "deploy" = some 0 ∧
      (makeInstance perServiceExternals
        (makeInstance perServiceExternals init sampleConfig "deploy" "svcA" "prod").state
        sampleConfig "deploy" "svcB" "staging").state.typeRegistry = init.typeRegistry :=
  have h := makeInstance_shares_registry_instance perServiceExternals init sampleConfig
    "deploy" "svcA" "prod" "svcB" "staging" 0 0 { kind := "Deploy", fills := [] }
    (by decide) (by decide) (by decide)
  ⟨h.1, h.2.2.2.1⟩

end commands

namespace hooks

/-- C6: `NewNewRelicClient` returns an error exactly when `Url` of the config, `ApiKey` of the
config or `ApplicationFilter` of the manifest is empty, whatever `StopOnError` of the manifest
is; the error is that of the first empty field in that order; otherwise it returns the client
holding `Url` and `ApiKey` of the config, `ApplicationFilter` and `StopOnError` of the
manifest, and `ApplicationId` 0. -/
theorem NewNewRelicClient_checks (cfg : NewRelicConfig) (manifest : NewRelicManifest) :
    ((∃ e, NewNewRelicClient cfg manifest = .error e) ↔
        (cfg.Url = "" ∨ cfg.ApiKey = "" ∨ manifest.ApplicationFilter = "")) ∧
      (∀ stop e, NewNewRelicClient cfg { manifest with StopOnError := stop } = .error e ↔
        NewNewRelicClient cfg manifest = .error e) ∧
      (cfg.Url = "" → NewNewRelicClient cfg manifest =
        .error "You need to define an url for newrelic in the config.") ∧
      (cfg.Url ≠ "" → cfg.ApiKey = "" → NewNewRelicClient cfg manifest =
        .error "You need to define an apiKey for newrelic in the config.") ∧
      (cfg.Url ≠ "" → cfg.ApiKey ≠ "" → manifest.ApplicationFilter = "" →
        NewNewRelicClient cfg manifest =
          .error "You need to define an applicationId for newrelic in the manifest.") ∧
      (cfg.Url ≠ "" → cfg.ApiKey ≠ "" → manifest.ApplicationFilter ≠ "" →
        NewNewRelicClient cfg manifest =
          .ok { Url := cfg.Url, ApiKey := cfg.ApiKey,
                ApplicationFilter := manifest.ApplicationFilter,
                ApplicationId := 0, Stop := manifest.StopOnError }) := by
  unfold NewNewRelicClient
  by_cases hu : cfg.Url = ""
  · simp [hu]
  · by_cases hk : cfg.ApiKey = ""
    · simp [hu, hk]
    · by_cases hf : manifest.ApplicationFilter = ""
      · simp [hu, hk, hf]
      · simp [hu, hk, hf]

/-- C6 at a config with an empty `Url` and an empty `ApiKey`: the url error is reported; and
at a complete config: the client is returned. -/
theorem NewNewRelicClient_checks_witness :
    NewNewRelicClient { Url := "", ApiKey := "" }
        { ApplicationFilter := "shop", StopOnError := false } =
        .error "You need to define an url for newrelic in the config." ∧
      NewNewRelicClient { Url := "https://api.newrelic.test", ApiKey := "key" }
        { ApplicationFilter := "shop-prod", StopOnError := true } = .ok sampleClient :=
  ⟨(NewNewRelicClient_checks { Url := "", ApiKey := "" }
      { ApplicationFilter := "shop", StopOnError := false }).2.2.1 rfl,
    (NewNewRelicClient_checks { Url := "https://api.newrelic.test", ApiKey := "key" }
      { ApplicationFilter := "shop-prod", StopOnError := true }).2.2.2.2.2
      (by decide) (by decide) (by decide)⟩

theorem invoke_self (L : Lib) (hook : NewRelicClient) (call : Call) :
    (invoke L hook call).self = hook := by
  cases call <;> rfl

theorem lifecycle_self (hook : NewRelicClient) (calls : List (Lib × Call)) :
    lifecycle hook calls = hook := by
  induction calls with
  | nil => rfl
  | cons head rest ih =>
    obtain ⟨L, call⟩ := head
    unfold lifecycle
    simp only [invoke_self]
    split
    · rfl
    · exact ih

/-- C9: for every client `c` returned by `NewNewRelicClient`, `StopOnError()` returns the
`StopOnError` of the manifest; each of `Init`, `PreDeployment` and `PostDeployment`, in any
environment and whatever it returns, leaves the hook object equal to `c` in all its fields;
so after any sequence of such calls the fields are those of construction and
`StopOnError()` returns the same value. -/
theorem hook_configuration_fixed (cfg : NewRelicConfig) (manifest : NewRelicManifest)
    (c : NewRelicClient) (hnew : NewNewRelicClient cfg manifest = .ok c) :
    c.StopOnError = manifest.StopOnError ∧
      c = { Url := cfg.Url, ApiKey := cfg.ApiKey,
            ApplicationFilter := manifest.ApplicationFilter,
            ApplicationId := 0, Stop := manifest.StopOnError } ∧
      (∀ L call, (invoke L c call).self = c) ∧
      (∀ calls, lifecycle c calls = c) ∧
      (∀ calls, (lifecycle c calls).StopOnError = manifest.StopOnError) := by
  have hc : c = NewRelicClient.mk cfg.Url cfg.ApiKey manifest.ApplicationFilter 0
      manifest.StopOnError := by
    unfold NewNewRelicClient at hnew
    by_cases hu : cfg.Url = ""
    · simp [hu] at hnew
    · by_cases hk : cfg.ApiKey = ""
      · simp [hu, hk] at hnew
      · by_cases hf : manifest.ApplicationFilter = ""
        · simp [hu, hk, hf] at hnew
        · simp [hu, hk, hf] at hnew
          exact hnew.symm
  have hstop : c.StopOnError = manifest.StopOnError := by
    rw [hc]
    rfl
  refine ⟨hstop, hc, fun L call => invoke_self L c call, fun calls => lifecycle_self c calls, ?_⟩
  intro calls
  rw [lifecycle_self c calls]
  exact hstop

/-- C9 at a `PreDeployment` whose lookup finds application 42 followed by a `PostDeployment`:
the hook still has `ApplicationId` 0 and all its other fields. -/
theorem hook_configuration_fixed_witness :
    lifecycle sampleClient
      [(sampleLib (answered 200) (answered 201) [{ Id := 42, Name := "shop-prod" }],
          Call.PreDeployment "alice" "prod" "shop" "1.2.3"),
        (sampleLib (answered 500) (answered 500) [],
          Call.PostDeployment "alice" "prod" "shop" "1.2.3")] = sampleClient :=
  (hook_configuration_fixed { Url := "https://api.newrelic.test", ApiKey := "key" }
    { ApplicationFilter := "shop-prod", StopOnError := true } sampleClient rfl).2.2.2.1 _

/-- C10, the code at a transport failure of the create call (`Do` returns a nil response and
an error): `CreateDeployment` reads `response.StatusCode` for its log entry before it tests
`err` and ends in a nil-pointer panic after the call was made; `findApplicationId`, which
tests `err` first, returns the error in the same situation. -/
theorem CreateDeployment_panics_on_transport_failure :
    (sampleClient.CreateDeployment (sampleLib transportFailure transportFailure [])
        sampleDeployment).ret = Ret.panic nilDereference ∧
      httpCalls (sampleClient.CreateDeployment (sampleLib transportFailure transportFailure [])
        sampleDeployment).trace =
        [createRequest sampleClient 0 (sampleEncode { Deployment := sampleDeployment })] ∧
      (sampleClient.findApplicationId (sampleLib transportFailure transportFailure [])
        "shop-prod").ret = Ret.error "connection refused" := by
  decide


theorem httpCalls_append (a b : List HEvent) : httpCalls (a ++ b) = httpCalls a ++ httpCalls b := by
  induction a with
  | nil => rfl
  | cons ev rest ih => cases ev <;> simp [httpCalls, ih]

theorem lookup_request_built (L : Lib) (c : NewRelicClient) (nameFilter : String)
    (hReq : L.requestError "GET" (c.Url ++ "/" ++ "v2/applications.json") = none) :
    c.NewRequest L "GET" "v2/applications.json" ("filter[name]=" ++ nameFilter) =
      (.ok { Method := "GET", Url := c.Url ++ "/" ++ "v2/applications.json",
             Body := "filter[name]=" ++ nameFilter, Header := [("X-Api-Key", c.ApiKey)] },
        [HEvent.logDebug "NewRelic request"
          [("url", c.Url ++ "/" ++ "v2/applications.json"), ("method", "GET")]]) := by
  simp [NewRelicClient.NewRequest, hReq, Request.headerAdd]

theorem lookup_request_header (c : NewRelicClient) (nameFilter : String) :
    Request.headerSet
        { Method := "GET", Url := c.Url ++ "/" ++ "v2/applications.json",
          Body := "filter[name]=" ++ nameFilter, Header := [("X-Api-Key", c.ApiKey)] }
        "Content-Type" "application/x-www-form-urlencoded" = lookupRequest c nameFilter := by
  simp [Request.headerSet, lookupRequest]

theorem create_request_built (L : Lib) (c : NewRelicClient) (body : String)
    (hReq : L.requestError "POST" (c.Url ++ "/" ++
      ("v2/applications/" ++ toString c.ApplicationId ++ "/deployments.json")) = none) :
    c.NewRequest L "POST"
        ("v2/applications/" ++ toString c.ApplicationId ++ "/deployments.json") body =
      (.ok { Method := "POST",
             Url := c.Url ++ "/" ++
               ("v2/applications/" ++ toString c.ApplicationId ++ "/deployments.json"),
             Body := body, Header := [("X-Api-Key", c.ApiKey)] },
        [HEvent.logDebug "NewRelic request"
          [("url", c.Url ++ "/" ++
              ("v2/applications/" ++ toString c.ApplicationId ++ "/deployments.json")),
            ("method", "POST")]]) := by
  simp [NewRelicClient.NewRequest, hReq, Request.headerAdd]

theorem create_request_header (c : NewRelicClient) (body : String) :
    Request.headerSet
        { Method := "POST",
          Url := c.Url ++ "/" ++
            ("v2/applications/" ++ toString c.ApplicationId ++ "/deployments.json"),
          Body := body, Header := [("X-Api-Key", c.ApiKey)] }
        "Content-Type" "application/json" = createRequest c c.ApplicationId body := by
  simp [Request.headerSet, createRequest]

theorem findApplicationId_calls (L : Lib) (c : NewRelicClient) (nameFilter : String) :
    ∀ r ∈ httpCalls (c.findApplicationId L nameFilter).trace, r = lookupRequest c nameFilter := by
  unfold NewRelicClient.findApplicationId
  cases hReq : L.requestError "GET" (c.Url ++ "/" ++ "v2/applications.json") with
  | some e => simp [NewRelicClient.NewRequest, hReq, httpCalls]
  | none =>
    simp only [lookup_request_built L c nameFilter hReq, lookup_request_header]
    rcases hDo : L.httpDo (lookupRequest c nameFilter) with ⟨resp, err⟩
    cases err with
    | some e => simp [httpCalls]
    | none =>
      cases resp with
      | none => simp [httpCalls]
      | some response =>
        simp only
        cases hBody : response.Body with
        | error e => simp [httpCalls]
        | ok bodyJson =>
          simp only
          split
          · simp [httpCalls]
          · cases hJson : L.jsonUnmarshal bodyJson with
            | error e => simp [httpCalls]
            | ok apps =>
              rcases apps with ⟨list⟩
              cases list <;> simp [httpCalls]

theorem findApplicationId_rejects (L : Lib) (c : NewRelicClient) (nameFilter : String)
    (resp : Response) (e : Option String)
    (hDo : L.httpDo (lookupRequest c nameFilter) = { response := some resp, err := e })
    (hStatus : resp.StatusCode ≠ 200) :
    ∃ msg, (c.findApplicationId L nameFilter).ret = Ret.error msg := by
  unfold NewRelicClient.findApplicationId
  cases hReq : L.requestError "GET" (c.Url ++ "/" ++ "v2/applications.json") with
  | some e => simp [NewRelicClient.NewRequest, hReq]
  | none =>
    simp only [lookup_request_built L c nameFilter hReq, lookup_request_header, hDo]
    cases e with
    | some e => simp
    | none =>
      simp only
      cases hBody : resp.Body with
      | error e => simp
      | ok bodyJson => simp [StatusOK, hStatus]

theorem findApplicationId_answer (L : Lib) (c : NewRelicClient) (nameFilter bodyJson : String)
    (resp : Response) (apps : List NewRelicApplication)
    (hReq : L.requestError "GET" (c.Url ++ "/" ++ "v2/applications.json") = none)
    (hDo : L.httpDo (lookupRequest c nameFilter) = { response := some resp, err := none })
    (hBody : resp.Body = .ok bodyJson) (hStatus : resp.StatusCode = 200)
    (hJson : L.jsonUnmarshal bodyJson = .ok { Applications := apps }) :
    (c.findApplicationId L nameFilter).ret =
        (match apps with
          | [] => Ret.error ("application " ++ nameFilter ++ " not found")
          | app :: _ => Ret.value app.Id) ∧
      httpCalls (c.findApplicationId L nameFilter).trace = [lookupRequest c nameFilter] := by
  unfold NewRelicClient.findApplicationId
  simp only [lookup_request_built L c nameFilter hReq, lookup_request_header, hDo, hBody]
  cases apps <;> simp [StatusOK, hStatus, hJson, httpCalls]

theorem CreateDeployment_sent (L : Lib) (c : NewRelicClient) (d : NewRelicDeployment)
    (body : String) (hEnc : L.jsonEncode { Deployment := d } = .ok body)
    (hReq : L.requestError "POST" (c.Url ++ "/" ++
      ("v2/applications/" ++ toString c.ApplicationId ++ "/deployments.json")) = none) :
    httpCalls (c.CreateDeployment L d).trace = [createRequest c c.ApplicationId body] ∧
      (c.CreateDeployment L d).ret =
        (match L.httpDo (createRequest c c.ApplicationId body) with
          | { response := none, err := _ } => Ret.panic nilDereference
          | { response := some _, err := some err } => Ret.error err
          | { response := some response, err := none } =>
            if response.StatusCode = 201 then Ret.value ()
            else Ret.error ("NewRelic status code: " ++ toString response.StatusCode)) := by
  unfold NewRelicClient.CreateDeployment
  simp only [hEnc, create_request_built L c body hReq, create_request_header]
  rcases hDo : L.httpDo (createRequest c c.ApplicationId body) with ⟨resp, err⟩
  cases resp with
  | none => simp [httpCalls]
  | some response =>
    cases err with
    | some e => simp [httpCalls]
    | none =>
      by_cases hs : response.StatusCode = 201
      · simp [httpCalls, StatusCreated, hs]
      · simp [httpCalls, StatusCreated, hs]

theorem CreateDeployment_calls (L : Lib) (c : NewRelicClient) (d : NewRelicDeployment) :
    httpCalls (c.CreateDeployment L d).trace = [] ∨
      ∃ body, L.jsonEncode { Deployment := d } = .ok body ∧
        httpCalls (c.CreateDeployment L d).trace = [createRequest c c.ApplicationId body] := by
  cases hEnc : L.jsonEncode { Deployment := d } with
  | error e =>
    left
    simp [NewRelicClient.CreateDeployment, hEnc, httpCalls]
  | ok body =>
    cases hReq : L.requestError "POST" (c.Url ++ "/" ++
      ("v2/applications/" ++ toString c.ApplicationId ++ "/deployments.json")) with
    | some e =>
      left
      simp [NewRelicClient.CreateDeployment, NewRelicClient.NewRequest, hEnc, hReq, httpCalls]
    | none =>
      right
      exact ⟨body, rfl, (CreateDeployment_sent L c d body hEnc hReq).1⟩


theorem PreDeployment_of_lookup_error (L : Lib) (c : NewRelicClient)
    (userName env service podVersion msg : String)
    (hParse : L.templateParse c.ApplicationFilter = none)
    (hfound : (c.findApplicationId L (L.templateExecute c.ApplicationFilter env).1).ret =
      Ret.error msg) :
    (c.PreDeployment L userName env service podVersion).ret = Ret.error msg ∧
      (c.PreDeployment L userName env service podVersion).trace =
        (c.findApplicationId L (L.templateExecute c.ApplicationFilter env).1).trace := by
  unfold NewRelicClient.PreDeployment
  simp [hParse, hfound]

theorem PreDeployment_of_lookup_value (L : Lib) (c : NewRelicClient)
    (userName env service podVersion : String) (appId : Int)
    (hParse : L.templateParse c.ApplicationFilter = none)
    (hfound : (c.findApplicationId L (L.templateExecute c.ApplicationFilter env).1).ret =
      Ret.value appId) :
    (c.PreDeployment L userName env service podVersion).ret =
        (NewRelicClient.CreateDeployment L { c with ApplicationId := appId }
          { Revision := podVersion, Changelog := "",
            Description := "Deploying " ++ service ++ " " ++ podVersion ++ " on " ++ env,
            User := userName }).ret ∧
      (c.PreDeployment L userName env service podVersion).trace =
        (c.findApplicationId L (L.templateExecute c.ApplicationFilter env).1).trace ++
        (NewRelicClient.CreateDeployment L { c with ApplicationId := appId }
          { Revision := podVersion, Changelog := "",
            Description := "Deploying " ++ service ++ " " ++ podVersion ++ " on " ++ env,
            User := userName }).trace := by
  unfold NewRelicClient.PreDeployment
  simp [hParse, hfound]

/-- C7, the claim as stated fails: a create call answered with status 200, a 2xx status, makes
`CreateDeployment` return the error "NewRelic status code: 200"; so does status 204. -/
theorem CreateDeployment_rejects_status_200 :
    (sampleClient.CreateDeployment (sampleLib (answered 200) (answered 200) [])
        sampleDeployment).ret = Ret.error "NewRelic status code: 200" ∧
      (sampleClient.CreateDeployment (sampleLib (answered 200) (answered 204) [])
        sampleDeployment).ret = Ret.error "NewRelic status code: 204" := by
  decide

/-- C7, amended: each call accepts one status. For every response to the application lookup
whose status is not 200, `findApplicationId` and `PreDeployment` return an error and the only
HTTP call made is the lookup (no create call). For every response to the create call,
`CreateDeployment` returns an error if the status is not 201 (the error
"NewRelic status code: " followed by the status when `Do` reported no error) and nil if the
status is 201 and `Do` reported no error. -/
theorem status_checks (L : Lib) (c : NewRelicClient) :
    (∀ nameFilter resp e,
        L.httpDo (lookupRequest c nameFilter) = { response := some resp, err := e } →
        resp.StatusCode ≠ 200 →
        (c.findApplicationId L nameFilter).ret.isError = true ∧
        ∀ r ∈ httpCalls (c.findApplicationId L nameFilter).trace,
          r = lookupRequest c nameFilter) ∧
      (∀ userName env service podVersion resp e,
        L.httpDo (lookupRequest c (L.templateExecute c.ApplicationFilter env).1) =
          { response := some resp, err := e } →
        resp.StatusCode ≠ 200 →
        (c.PreDeployment L userName env service podVersion).ret.isError = true ∧
        ∀ r ∈ httpCalls (c.PreDeployment L userName env service podVersion).trace,
          r = lookupRequest c (L.templateExecute c.ApplicationFilter env).1) ∧
      (∀ d body resp e, L.jsonEncode { Deployment := d } = .ok body →
        L.requestError "POST" (c.Url ++ "/" ++
          ("v2/applications/" ++ toString c.ApplicationId ++ "/deployments.json")) = none →
        L.httpDo (createRequest c c.ApplicationId body) =
          { response := some resp, err := e } →
        (resp.StatusCode = 201 → e = none → (c.CreateDeployment L d).ret = Ret.value ()) ∧
        (resp.StatusCode ≠ 201 → (c.CreateDeployment L d).ret.isError = true) ∧
        (resp.StatusCode ≠ 201 → e = none → (c.CreateDeployment L d).ret =
          Ret.error ("NewRelic status code: " ++ toString resp.StatusCode))) := by
  refine ⟨?_, ?_, ?_⟩
  · intro nameFilter resp e hDo hStatus
    obtain ⟨msg, hmsg⟩ := findApplicationId_rejects L c nameFilter resp e hDo hStatus
    refine ⟨?_, findApplicationId_calls L c nameFilter⟩
    rw [hmsg]
    rfl
  · intro userName env service podVersion resp e hDo hStatus
    cases hParse : L.templateParse c.ApplicationFilter with
    | some err => simp [NewRelicClient.PreDeployment, hParse, Ret.isError, httpCalls]
    | none =>
      obtain ⟨msg, hmsg⟩ := findApplicationId_rejects L c _ resp e hDo hStatus
      obtain ⟨hret, htrace⟩ :=
        PreDeployment_of_lookup_error L c userName env service podVersion msg hParse hmsg
      rw [hret, htrace]
      exact ⟨rfl, findApplicationId_calls L c _⟩
  · intro d body resp e hEnc hReq hDo
    have hsent := (CreateDeployment_sent L c d body hEnc hReq).2
    rw [hDo] at hsent
    refine ⟨?_, ?_, ?_⟩
    · intro hs he
      subst he
      rw [hsent]
      simp [hs]
    · intro hs
      rw [hsent]
      cases e with
      | some err => rfl
      | none => simp [hs, Ret.isError]
    · intro hs he
      subst he
      rw [hsent]
      simp [hs]

/-- C7 amended, at a create call answered 201 (nil) and answered 500 (error). -/
theorem status_checks_witness :
    (sampleClient.CreateDeployment (sampleLib (answered 200) (answered 201) [])
        sampleDeployment).ret = Ret.value () ∧
      (sampleClient.CreateDeployment (sampleLib (answered 200) (answered 500) [])
        sampleDeployment).ret = Ret.error "NewRelic status code: 500" ∧
      (sampleClient.findApplicationId (sampleLib (answered 404) (answered 201) [])
        "shop-prod").ret.isError = true :=
  ⟨((status_checks (sampleLib (answered 200) (answered 201) []) sampleClient).2.2
      sampleDeployment (sampleEncode { Deployment := sampleDeployment })
      { StatusCode := 201, Body := .ok "payload" } none rfl rfl rfl).1 rfl rfl,
    ((status_checks (sampleLib (answered 200) (answered 500) []) sampleClient).2.2
      sampleDeployment (sampleEncode { Deployment := sampleDeployment })
      { StatusCode := 500, Body := .ok "payload" } none rfl rfl rfl).2.2 (by decide) rfl,
    ((status_checks (sampleLib (answered 404) (answered 201) []) sampleClient).1
      "shop-prod" { StatusCode := 404, Body := .ok "payload" } none rfl (by decide)).1⟩

/-- C8: when the filter template parses and the lookup succeeds (request built, response
with status 200, readable body that decodes to the application list `apps`): if `apps` is
empty, `PreDeployment` returns the error "application <filter> not found" and the lookup is
the only HTTP call; if `apps` is not empty, the HTTP calls are the lookup followed by at most
one other call, which is the create call, a POST to
"<Url>/v2/applications/<id>/deployments.json" with `<id>` the id of the first element of
`apps` (whatever `ApplicationId` the hook stores) and with the encoding of the deployment
with revision `podVersion`, description "Deploying <service> <podVersion> on <env>", user
`userName` and an empty changelog as body; that call is made whenever the body can be encoded
and the request built. -/
theorem PreDeployment_create_call (L : Lib) (c : NewRelicClient)
    (userName env service podVersion bodyJson : String) (resp : Response)
    (apps : List NewRelicApplication)
    (hParse : L.templateParse c.ApplicationFilter = none)
    (hReq : L.requestError "GET" (c.Url ++ "/" ++ "v2/applications.json") = none)
    (hDo : L.httpDo (lookupRequest c (L.templateExecute c.ApplicationFilter env).1) =
      { response := some resp, err := none })
    (hBody : resp.Body = .ok bodyJson) (hStatus : resp.StatusCode = 200)
    (hJson : L.jsonUnmarshal bodyJson = .ok { Applications := apps }) :
    (apps = [] →
        (c.PreDeployment L userName env service podVersion).ret =
          Ret.error ("application " ++ (L.templateExecute c.ApplicationFilter env).1 ++
            " not found") ∧
        httpCalls (c.PreDeployment L userName env service podVersion).trace =
          [lookupRequest c (L.templateExecute c.ApplicationFilter env).1]) ∧
      (∀ app rest, apps = app :: rest →
        (httpCalls (c.PreDeployment L userName env service podVersion).trace =
            [lookupRequest c (L.templateExecute c.ApplicationFilter env).1] ∨
          ∃ body,
            L.jsonEncode { Deployment :=
              { Revision := podVersion, Changelog := "",
                Description := "Deploying " ++ service ++ " " ++ podVersion ++ " on " ++ env,
                User := userName } } = .ok body ∧
            httpCalls (c.PreDeployment L userName env service podVersion).trace =
              [lookupRequest c (L.templateExecute c.ApplicationFilter env).1,
                createRequest c app.Id body]) ∧
        (∀ body,
          L.jsonEncode { Deployment :=
            { Revision := podVersion, Changelog := "",
              Description := "Deploying " ++ service ++ " " ++ podVersion ++ " on " ++ env,
              User := userName } } = .ok body →
          L.requestError "POST" (c.Url ++ "/" ++
            ("v2/applications/" ++ toString app.Id ++ "/deployments.json")) = none →
          httpCalls (c.PreDeployment L userName env service podVersion).trace =
            [lookupRequest c (L.templateExecute c.ApplicationFilter env).1,
              createRequest c app.Id body] ∧
          (createRequest c app.Id body).Method = "POST" ∧
          (createRequest c app.Id body).Url = c.Url ++ "/" ++
            ("v2/applications/" ++ toString app.Id ++ "/deployments.json") ∧
          (createRequest c app.Id body).Body = body)) := by
  obtain ⟨hfound, hcalls⟩ := findApplicationId_answer L c
    (L.templateExecute c.ApplicationFilter env).1 bodyJson resp apps hReq hDo hBody hStatus hJson
  constructor
  · intro hnil
    subst hnil
    obtain ⟨hret, htrace⟩ :=
      PreDeployment_of_lookup_error L c userName env service podVersion _ hParse hfound
    rw [hret, htrace]
    exact ⟨rfl, hcalls⟩
  · intro app rest happs
    subst happs
    obtain ⟨_, htrace⟩ :=
      PreDeployment_of_lookup_value L c userName env service podVersion app.Id hParse hfound
    rw [htrace, httpCalls_append, hcalls]
    constructor
    · rcases CreateDeployment_calls L { c with ApplicationId := app.Id }
        { Revision := podVersion, Changelog := "",
          Description := "Deploying " ++ service ++ " " ++ podVersion ++ " on " ++ env,
          User := userName } with hnone | ⟨body, hEnc, hsent⟩
      · left
        rw [hnone]
        rfl
      · right
        refine ⟨body, hEnc, ?_⟩
        rw [hsent]
        rfl
    · intro body hEnc hPost
      have hsent := (CreateDeployment_sent L { c with ApplicationId := app.Id } _ body
        hEnc hPost).1
      rw [hsent]
      exact ⟨rfl, rfl, rfl, rfl⟩

/-- C8 at a hook with stored `ApplicationId` 0 whose lookup finds applications 42 and 7: the
calls are the lookup and one create call for application 42. -/
theorem PreDeployment_create_call_witness :
    httpCalls (sampleClient.PreDeployment
        (sampleLib (answered 200) (answered 201)
          [{ Id := 42, Name := "shop-prod" }, { Id := 7, Name := "shop-prod-eu" }])
        "alice" "prod" "shop" "1.2.3").trace =
      [lookupRequest sampleClient "shop-prod",
        createRequest sampleClient 42 (sampleEncode { Deployment := sampleDeployment })] :=
  ((PreDeployment_create_call
      (sampleLib (answered 200) (answered 201)
        [{ Id := 42, Name := "shop-prod" }, { Id := 7, Name := "shop-prod-eu" }])
      sampleClient "alice" "prod" "shop" "1.2.3" "payload"
      { StatusCode := 200, Body := .ok "payload" }
      [{ Id := 42, Name := "shop-prod" }, { Id := 7, Name := "shop-prod-eu" }]
      rfl rfl rfl rfl rfl rfl).2 { Id := 42, Name := "shop-prod" }
      [{ Id := 7, Name := "shop-prod-eu" }] rfl).2
      (sampleEncode { Deployment := sampleDeployment }) rfl rfl |>.1

end hooks

end Contactkey
